import Mathlib

/-
Verification of the load-orchestration core of the vnp package
(src/vnp/bigquery.py and src/vnp/storage.py).

The Python code is shallowly embedded:
- JSON records become association lists over a small value type;
- the retry decorator becomes a pure function returning the list of
  performed sleeps together with the outcome;
- network-facing code becomes explicit state passing over a `World`
  that records the destination table, the temp table, the staged
  files and a trace of every collaborator call; transient and other
  failures are injected through an oracle indexed by the call and its
  occurrence count.
-/

set_option maxHeartbeats 1000000

namespace Vnp

/-- Errors raised by the embedded code.  `transient` stands for the four
exception classes caught by the retry decorator (ServerError,
ServiceUnavailable, ConnectionError, TimeoutError); `notFound` for
google NotFound; `cloudError` for other GoogleCloudError raised by the
storage client; `valueError` and `typeError` for the Python builtins. -/
inductive Err where
  | transient
  | nonTransient
  | notFound
  | cloudError
  | valueError
  | typeError
deriving DecidableEq, Repr

/-- Scalar JSON values appearing in records. -/
inductive JVal where
  | s (v : String)
  | n (v : Int)
  | b (v : Bool)
deriving DecidableEq, Repr

/-- A Python dict used as one JSON record: insertion-ordered key/value pairs. -/
abbrev Record := List (String × JVal)

/-- A runtime Python value passed to `_add_import_timestamp`:
a dict, a list of arbitrary values, or anything else. -/
inductive PyVal where
  | dict (r : Record)
  | list (xs : List PyVal)
  | other

/-- isinstance(x, dict) -/
def isDictB : PyVal → Bool
  | .dict _ => true
  | _ => false

/-- Python dict assignment `d[k] = v`: overwrite the value in place when the
key is present (keeping its position), otherwise append the new pair. -/
def dictSet (d : List (String × α)) (k : String) (v : α) : List (String × α) :=
  if d.any (fun p => p.1 == k) then
    d.map (fun p => if p.1 == k then (k, v) else p)
  else
    d ++ [(k, v)]

/-- Python dict lookup `d[k]` (first entry with the key). -/
def dictGet (d : List (String × α)) (k : String) : Option α :=
  (d.find? (fun p => p.1 == k)).map (fun p => p.2)

/-- bigquery.py lines 425-458, `BigQueryController._add_import_timestamp`,
value behaviour: reject anything that is not a dict or a list, capture one
timestamp `ts` for the whole call, stamp a dict directly, and stamp every
element of a list after checking all elements are dicts. -/
def _add_import_timestamp (ts : String) : PyVal → Except Err PyVal
  | .dict r => .ok (.dict (dictSet r "import_timestamp" (.s ts)))
  | .list xs =>
    if xs.all isDictB then
      .ok (.list (xs.map (fun x =>
        match x with
        | .dict r => PyVal.dict (dictSet r "import_timestamp" (.s ts))
        | y => y)))
    else
      .error .typeError
  | .other => .error .typeError

/-- bigquery.py lines 455-458, reference semantics of the stamping loop
`for item in json_data: item["import_timestamp"] = import_timestamp`:
the records are object references (`Nat` ids) into a heap, and each
referenced dict is updated in place. -/
def stampRefs (ts : String) : List Nat → (Nat → Record) → Nat → Record
  | [], h => h
  | i :: is, h =>
    stampRefs ts is (fun n => if n = i then dictSet (h i) "import_timestamp" (.s ts) else h n)

/-- bigquery.py lines 450-458 for a list input: mutate every referenced dict
in the heap and return the original list object (`return json_data`). -/
def _add_import_timestamp_refs (ts : String) (ids : List Nat) (h : Nat → Record) :
    (Nat → Record) × List Nat :=
  (stampRefs ts ids h, ids)

/-- Fuel-indexed worker for `_chunk_data`; the fuel is the list length, so
the recursion is structural and computations reduce definitionally. -/
def chunkDataAux (chunkSize : Nat) : Nat → List α → List (List α)
  | 0, _ => []
  | _, [] => []
  | fuel + 1, l => l.take chunkSize :: chunkDataAux chunkSize fuel (l.drop chunkSize)

/-- bigquery.py lines 406-423, `BigQueryController._chunk_data`:
`[data_list[i : i + chunk_size] for i in range(0, len(data_list), chunk_size)]`.
(For chunk_size = 0 the Python range raises; the claims only concern a
positive chunk size.) -/
def _chunk_data (chunkSize : Nat) (l : List α) : List (List α) :=
  chunkDataAux chunkSize l.length l

/-- One invocation of an operation as seen by the retry decorator: a result,
one of the four transient exception classes, or any other exception.  The
error payload is an id so that "the last transient error" is observable. -/
inductive OpOut (α : Type) where
  | ok (a : α)
  | transient (e : Nat)
  | fatal (e : Nat)
deriving DecidableEq, Repr

/-- Outcome of the decorated call. -/
inductive RetryOut (α : Type) where
  | success (a : α)
  | raised (e : Nat)
deriving DecidableEq, Repr

/-- bigquery.py lines 88-131, the wrapper's loop, with `remaining` counting
the attempts still allowed after the current one (the loop guard
`attempt < max_retries` is `remaining > 0`).  Returns the list of sleep
durations performed together with the outcome. -/
def retryGo (op : Nat → OpOut α) (backoff maxDelay : ℚ) :
    Nat → Nat → ℚ → List ℚ × RetryOut α
  | remaining, attempt, delay =>
    match op attempt with
    | .ok a => ([], .success a)
    | .fatal e => ([], .raised e)
    | .transient e =>
      match remaining with
      | 0 => ([], .raised e)
      | r + 1 =>
        let rest := retryGo op backoff maxDelay r (attempt + 1) (delay * backoff)
        (min delay maxDelay :: rest.1, rest.2)

/-- bigquery.py lines 68-131, `retry_on_transient_error` applied to an
operation: run attempts 0, 1, ... with `delay` starting at `initialDelay`,
sleeping `min delay maxDelay` and multiplying the delay by `backoff` after
each transient failure, for at most `maxRetries` retries. -/
def retryRun (op : Nat → OpOut α) (maxRetries : Nat)
    (initialDelay backoff maxDelay : ℚ) : List ℚ × RetryOut α :=
  retryGo op backoff maxDelay maxRetries 0 initialDelay

/-- The sleep performed after the i-th failed attempt. -/
def sleepAt (initialDelay backoff maxDelay : ℚ) (i : Nat) : ℚ :=
  min (initialDelay * backoff ^ i) maxDelay

/-- The sleeps performed by a call that sleeps `n` times. -/
def expSleeps (n : Nat) (initialDelay backoff maxDelay : ℚ) : List ℚ :=
  (List.range n).map (sleepAt initialDelay backoff maxDelay)

/-- Every decorator application in bigquery.py (lines 204, 236, 343, 384,
460, 578) is `@retry_on_transient_error()` with no arguments, so every
wrapped method uses the decorator's own default parameters from lines
68-72: max_retries 3, initial_delay 1, backoff_factor 2, max_delay 60. -/
def decoratedRetryRun (op : Nat → OpOut α) : List ℚ × RetryOut α :=
  retryRun op 3 1 2 60

/-- A configuration value: int, float or str (bigquery.py line 57). -/
inductive CV where
  | i (v : Int)
  | f (v : ℚ)
  | s (v : String)
deriving DecidableEq, Repr

/-- A configuration dict. -/
abbrev Config := List (String × CV)

/-- bigquery.py lines 57-65, DEFAULT_CONFIG. -/
def DEFAULT_CONFIG : Config :=
  [("max_retries", .i 3),
   ("initial_retry_delay", .i 1),
   ("retry_multiplier", .i 2),
   ("max_retry_delay", .i 60),
   ("chunk_size", .i 10000),
   ("temp_table_prefix", .s "temp_"),
   ("temp_table_suffix_format", .s "%Y%m%d%H%M%S")]

/-- bigquery.py lines 176-178: `self.config = {**DEFAULT_CONFIG}` followed by
`self.config.update(config)` — caller overrides win, merged once at
construction. -/
def mergeConfig (overrides : Config) : Config :=
  overrides.foldl (fun acc p => dictSet acc p.1 p.2) DEFAULT_CONFIG

/-- `cast(int, self.config[k])` with a harmless default for absent keys. -/
def cfgInt (cfg : Config) (k : String) : Int :=
  match dictGet cfg k with
  | some (.i v) => v
  | _ => 0

/-- `cast(str, self.config[k])` with a harmless default for absent keys. -/
def cfgStr (cfg : Config) (k : String) : String :=
  match dictGet cfg k with
  | some (.s v) => v
  | _ => ""

/-- A BigQuery schema field (name, type, mode). -/
structure SchemaField where
  name : String
  field_type : String
  mode : String
deriving DecidableEq, Repr

/-- The field appended by the migration (bigquery.py lines 264-267). -/
def tsField : SchemaField :=
  { name := "import_timestamp", field_type := "TIMESTAMP", mode := "NULLABLE" }

/-- bigquery.py lines 258-275: the schema used for the partitioned
replacement table.  If no `import_timestamp` field is present append one
typed TIMESTAMP; if one is present but not TIMESTAMP-typed remove every
field of that name and append a TIMESTAMP one; otherwise keep the schema. -/
def effectiveSchema (schema : List SchemaField) : List SchemaField :=
  match schema.find? (fun f => f.name == "import_timestamp") with
  | none => schema ++ [tsField]
  | some f =>
    if f.field_type ≠ "TIMESTAMP" then
      (schema.filter (fun g => g.name ≠ "import_timestamp")) ++ [tsField]
    else
      schema

/-- A time-partitioning configuration on a table. -/
structure TimePartitioning where
  type_ : String
  field : String
  require_filter : Bool
  expiration_ms : Option Int
deriving DecidableEq, Repr

/-- bigquery.py lines 294-299: day partitioning on import_timestamp, no
partition filter requirement, no expiration. -/
def dayPartitioning : TimePartitioning :=
  { type_ := "DAY", field := "import_timestamp", require_filter := false,
    expiration_ms := none }

/-- State of one warehouse table. -/
structure BqTable where
  schema : List SchemaField
  rows : List Record
  partitioning : Option TimePartitioning
deriving DecidableEq, Repr

/-- The BigQuery type autodetected for a scalar JSON value.  Model of the
warehouse collaborator (spec section 6); the repository itself delegates
schema autodetection to the load job. -/
def jvalType : JVal → String
  | .s _ => "STRING"
  | .n _ => "INTEGER"
  | .b _ => "BOOLEAN"

/-- Schema autodetection from a staged newline-delimited JSON file:
field names and types taken from the first record.  Model of the
warehouse collaborator (spec section 6). -/
def autodetectSchema (recs : List Record) : List SchemaField :=
  match recs with
  | [] => []
  | r :: _ => r.map (fun p => { name := p.1, field_type := jvalType p.2, mode := "NULLABLE" })

/-- One collaborator call, as recorded in the trace. -/
inductive Ev where
  | getTable (id : String)
  | createTable (id : String) (schema : List SchemaField) (part : Option TimePartitioning)
  | copyQuery (src : String) (dst : String)
  | deleteTable (id : String)
  | renameQuery (src : String) (dst : String)
  | loadJob (uri : Nat) (recs : List Record) (autodetect : Bool) (wd : String)
  | upload (uri : Nat) (recs : List Record)
  | deleteFile (uri : Nat)
deriving DecidableEq, Repr

/-- The mutable world: the destination table, the migration's temp table,
the staged files in the bucket, a fresh-name counter, and the trace of all
collaborator calls made so far. -/
structure World where
  mainTable : Option BqTable
  tempTable : Option BqTable
  files : List (Nat × List Record)
  nextUri : Nat
  trace : List Ev
deriving DecidableEq, Repr

/-- Fault injection: given a call and the number of identical earlier calls
in the trace, optionally make the call raise. -/
abbrev Oracle := Ev → Nat → Option Err

/-- The fixed data of one controller instance: table id, merged config, the
strftime-of-now(Europe/Berlin) environment function, and the fault oracle. -/
structure Ctx where
  table_id : String
  cfg : Config
  fmtNow : String → String
  oracle : Oracle

/-- Append a call to the trace. -/
def emit (w : World) (e : Ev) : World :=
  { w with trace := w.trace ++ [e] }

/-- Number of earlier occurrences of the same call in the trace. -/
def occCount (tr : List Ev) (e : Ev) : Nat :=
  (tr.filter (fun x => x = e)).length

/-- Consult the oracle for a call about to be made. -/
def fault (ctx : Ctx) (w : World) (e : Ev) : Option Err :=
  ctx.oracle e (occCount w.trace e)

/-- A world with the given destination table, empty bucket and empty trace. -/
def initWorld (mt : Option BqTable) : World :=
  { mainTable := mt, tempTable := none, files := [], nextUri := 0, trace := [] }

/-- bigquery.py lines 94-123 as used on the stateful methods: the decorated
body is re-run after an error of the transient classes, up to `fuel` more
times; any other error is raised immediately. -/
def retryS (body : World → World × Except Err α) : Nat → World → World × Except Err α
  | 0, w => body w
  | n + 1, w =>
    match body w with
    | (w2, .error .transient) => retryS body n w2
    | r => r

/-- `self.client.get_table(self.table_ref)`: look the destination table up,
raising NotFound when it is absent. -/
def get_table_main (ctx : Ctx) (w : World) : World × Except Err BqTable :=
  let e := Ev.getTable ctx.table_id
  let k := fault ctx w e
  let w := emit w e
  match k with
  | some err => (w, .error err)
  | none =>
    match w.mainTable with
    | some t => (w, .ok t)
    | none => (w, .error .notFound)

/-- bigquery.py lines 385-404, body of `_table_exists`: NotFound means the
table does not exist; other API errors propagate. -/
def table_exists_body (ctx : Ctx) (w : World) : World × Except Err Bool :=
  match get_table_main ctx w with
  | (w, .ok _) => (w, .ok true)
  | (w, .error .notFound) => (w, .ok false)
  | (w, .error err) => (w, .error err)

/-- bigquery.py line 384: `_table_exists` is decorated with
`@retry_on_transient_error()`. -/
def _table_exists (ctx : Ctx) : World → World × Except Err Bool :=
  retryS (table_exists_body ctx) 3

/-- The records staged under a URI. -/
def lookupFile (files : List (Nat × List Record)) (uri : Nat) : List Record :=
  match files.find? (fun p => p.1 == uri) with
  | some p => p.2
  | none => []

/-- `self.client.load_table_from_uri(...)` followed by `load_job.result()`:
load the staged file into the destination table under the given write
disposition; with autodetection an absent table is created (unpartitioned)
with the autodetected schema.  Write-disposition semantics are the
warehouse collaborator model (spec section 6). -/
def run_load_job (ctx : Ctx) (uri : Nat) (autodetect : Bool) (wd : String)
    (w : World) : World × Except Err Unit :=
  let recs := lookupFile w.files uri
  let e := Ev.loadJob uri recs autodetect wd
  let k := fault ctx w e
  let w := emit w e
  match k with
  | some err => (w, .error err)
  | none =>
    match w.mainTable with
    | none =>
      ({ w with mainTable := some { schema := autodetectSchema recs, rows := recs,
                                    partitioning := none } }, .ok ())
    | some t =>
      if wd = "WRITE_TRUNCATE" then
        ({ w with mainTable := some { t with rows := recs } }, .ok ())
      else if wd = "WRITE_EMPTY" then
        if t.rows = [] then
          ({ w with mainTable := some { t with rows := recs } }, .ok ())
        else
          (w, .error .nonTransient)
      else
        ({ w with mainTable := some { t with rows := t.rows ++ recs } }, .ok ())

/-- bigquery.py lines 205-234, body of `_load_data_from_gcs`: read the
current schema with `get_table`, then run the load job with that frozen
schema (no autodetection). -/
def load_data_body (ctx : Ctx) (uri : Nat) (wd : String) (w : World) :
    World × Except Err Unit :=
  match get_table_main ctx w with
  | (w, .ok _) => run_load_job ctx uri false wd w
  | (w, .error err) => (w, .error err)

/-- bigquery.py line 204: `_load_data_from_gcs` is decorated with
`@retry_on_transient_error()`. -/
def _load_data_from_gcs (ctx : Ctx) (uri : Nat) (wd : String) :
    World → World × Except Err Unit :=
  retryS (load_data_body ctx uri wd) 3

/-- bigquery.py lines 237-341, body of `_create_partitioned_table`:
read the schema, compute the effective schema, build the temp table name
(suffix defaulting to the current Europe/Berlin time formatted per the
configured format), create the temp table day-partitioned on
import_timestamp, copy all rows with a full-table SELECT, delete the
original table, confirm the temp table exists, and rename it. -/
def create_partitioned_body (ctx : Ctx) (temp_suffix : Option String) (w : World) :
    World × Except Err Unit :=
  match get_table_main ctx w with
  | (w, .error err) => (w, .error err)
  | (w, .ok t) =>
    let schema := effectiveSchema t.schema
    let sfx := temp_suffix.getD (ctx.fmtNow (cfgStr ctx.cfg "temp_table_suffix_format"))
    let temp_table_id := ctx.table_id ++ "_" ++ cfgStr ctx.cfg "temp_table_prefix" ++ sfx
    let e1 := Ev.createTable temp_table_id schema (some dayPartitioning)
    let k1 := fault ctx w e1
    let w := emit w e1
    match k1 with
    | some err => (w, .error err)
    | none =>
      if w.tempTable.isSome then
        (w, .error .nonTransient)
      else
        let w := { w with tempTable := some { schema := schema, rows := [],
                                              partitioning := some dayPartitioning } }
        let e2 := Ev.copyQuery ctx.table_id temp_table_id
        let k2 := fault ctx w e2
        let w := emit w e2
        match k2 with
        | some err => (w, .error err)
        | none =>
          let w := { w with tempTable := some { schema := schema, rows := t.rows,
                                                partitioning := some dayPartitioning } }
          let e3 := Ev.deleteTable ctx.table_id
          let k3 := fault ctx w e3
          let w := emit w e3
          match k3 with
          | some err => (w, .error err)
          | none =>
            let w := { w with mainTable := none }
            let e4 := Ev.getTable temp_table_id
            let k4 := fault ctx w e4
            let w := emit w e4
            match k4 with
            | some err => (w, .error err)
            | none =>
              match w.tempTable with
              | none => (w, .error .notFound)
              | some tt =>
                let e5 := Ev.renameQuery temp_table_id ctx.table_id
                let k5 := fault ctx w e5
                let w := emit w e5
                match k5 with
                | some err => (w, .error err)
                | none =>
                  ({ w with mainTable := some tt, tempTable := none }, .ok ())

/-- bigquery.py line 236: `_create_partitioned_table` is decorated with
`@retry_on_transient_error()`. -/
def _create_partitioned_table (ctx : Ctx) (temp_suffix : Option String) :
    World → World × Except Err Unit :=
  retryS (create_partitioned_body ctx temp_suffix) 3

/-- bigquery.py lines 344-382, body of `_create_new_table_with_chunk`:
initial load with autodetection, then the partitioning migration (itself
a decorated call, with the default temp suffix), then a reload of the same
staged file with the frozen schema and the same write disposition. -/
def create_new_body (ctx : Ctx) (uri : Nat) (wd : String) (w : World) :
    World × Except Err Unit :=
  match run_load_job ctx uri true wd w with
  | (w, .error err) => (w, .error err)
  | (w, .ok _) =>
    match _create_partitioned_table ctx none w with
    | (w, .error err) => (w, .error err)
    | (w, .ok _) =>
      match get_table_main ctx w with
      | (w, .error err) => (w, .error err)
      | (w, .ok _) => run_load_job ctx uri false wd w

/-- bigquery.py line 343: `_create_new_table_with_chunk` is decorated with
`@retry_on_transient_error()`. -/
def _create_new_table_with_chunk (ctx : Ctx) (uri : Nat) (wd : String) :
    World → World × Except Err Unit :=
  retryS (create_new_body ctx uri wd) 3

/-- storage.py lines 66-125, `StorageController.upload_to_gcs`: stage the
chunk in the bucket under a fresh name and return its URI.  Not decorated
with the retry wrapper; an upload failure propagates to the caller. -/
def upload_to_gcs (ctx : Ctx) (chunk : List Record) (w : World) :
    World × Except Err Nat :=
  let uri := w.nextUri
  let e := Ev.upload uri chunk
  let k := fault ctx w e
  let w := emit w e
  match k with
  | some err => (w, .error err)
  | none =>
    ({ w with files := w.files ++ [(uri, chunk)], nextUri := uri + 1 }, .ok uri)

/-- storage.py lines 127-156, `StorageController.delete_file`: not decorated
with the retry wrapper; NotFound, GoogleCloudError and every other
exception are caught and logged, so the call always returns normally. -/
def delete_file (ctx : Ctx) (uri : Nat) (w : World) : World × Except Err Unit :=
  let e := Ev.deleteFile uri
  let k := fault ctx w e
  let w := emit w e
  match k with
  | some _ => (w, .ok ())
  | none => ({ w with files := w.files.filter (fun p => p.1 ≠ uri) }, .ok ())

/-- Flatten the stamped value back into the record list used by the export
loop (`data_list`, bigquery.py lines 502-506); after a successful stamping
every element is a dict. -/
def asRecList : PyVal → List Record
  | .dict r => [r]
  | .list xs => xs.filterMap (fun x => match x with | .dict r => some r | _ => none)
  | .other => []

/-- bigquery.py lines 533-557, the chunk loop: skip empty chunks; upload the
chunk; for the first chunk of an absent table run the
create-with-autodetection-then-partition sequence, otherwise the frozen
schema load; then optionally delete the staged file.  Any raised error
aborts the loop. -/
def chunk_loop (ctx : Ctx) (wd : String) (del : Bool) :
    List (Nat × List Record) → Bool → List Nat → World → World × Except Err (List Nat)
  | [], _, uris, w => (w, .ok uris)
  | (i, chunk) :: rest, tableExisted, uris, w =>
    if chunk.isEmpty then
      chunk_loop ctx wd del rest tableExisted uris w
    else
      match upload_to_gcs ctx chunk w with
      | (w, .error err) => (w, .error err)
      | (w, .ok uri) =>
        let uris := uris ++ [uri]
        let isNew := !tableExisted && i == 0
        match (if isNew then _create_new_table_with_chunk ctx uri wd w
               else _load_data_from_gcs ctx uri wd w) with
        | (w, .error err) => (w, .error err)
        | (w, .ok _) =>
          match (if del then delete_file ctx uri w else (w, .ok ())) with
          | (w, .error err) => (w, .error err)
          | (w, .ok _) => chunk_loop ctx wd del rest (tableExisted || isNew) uris w

/-- bigquery.py lines 461-576, body of `export_to_bigquery`: validate the
write disposition, stamp one shared timestamp, return early on an empty
batch, chunk when the batch exceeds chunk_size, check table existence once,
run the chunk loop, and finally re-read the table (for the row-count log,
line 561) before returning the staged URIs. -/
def export_body (ctx : Ctx) (json_data : PyVal) (wd : String) (del : Bool)
    (ts : String) (w : World) : World × Except Err (List Nat) :=
  if wd ∉ ["WRITE_APPEND", "WRITE_TRUNCATE", "WRITE_EMPTY"] then
    (w, .error .valueError)
  else
    match _add_import_timestamp ts json_data with
    | .error err => (w, .error err)
    | .ok stamped =>
      let data_list := asRecList stamped
      if data_list.isEmpty then
        (w, .ok [])
      else
        let chunkSize := (cfgInt ctx.cfg "chunk_size").toNat
        let chunks := if data_list.length > chunkSize then _chunk_data chunkSize data_list
                      else [data_list]
        match _table_exists ctx w with
        | (w, .error err) => (w, .error err)
        | (w, .ok tableExisted) =>
          match chunk_loop ctx wd del chunks.enum tableExisted [] w with
          | (w, .error err) => (w, .error err)
          | (w, .ok uris) =>
            if uris.isEmpty then
              (w, .ok uris)
            else
              let e := Ev.getTable ctx.table_id
              let k := fault ctx w e
              let w := emit w e
              match k with
              | some err => (w, .error err)
              | none =>
                match w.mainTable with
                | none => (w, .error .notFound)
                | some _ => (w, .ok uris)

/-- bigquery.py line 460: `export_to_bigquery` is itself decorated with
`@retry_on_transient_error()`, so the whole body is re-run after a
transient error, up to 3 more times. -/
def export_to_bigquery (ctx : Ctx) (json_data : PyVal) (wd : String)
    (del : Bool) (ts : String) : World → World × Except Err (List Nat) :=
  retryS (export_body ctx json_data wd del ts) 3

/-- Load-job events of a trace. -/
def loadEvents (tr : List Ev) : List Ev :=
  tr.filter (fun e => match e with | .loadJob _ _ _ _ => true | _ => false)

/-- Number of load jobs in the trace whose staged file holds `recs`. -/
def countLoadsOf (recs : List Record) (tr : List Ev) : Nat :=
  (tr.filter (fun e => match e with
    | .loadJob _ r _ _ => decide (r = recs)
    | _ => false)).length

/-- Two sample caller records. -/
def rA : Record := [("a", .n 1)]

def rB : Record := [("a", .n 2)]

/-- The sample records after stamping with timestamp "TS". -/
def rA_ts : Record := [("a", .n 1), ("import_timestamp", .s "TS")]

def rB_ts : Record := [("a", .n 2), ("import_timestamp", .s "TS")]

/-- Schema of the pre-existing destination table in the failure scenarios. -/
def s0 : List SchemaField :=
  [{ name := "a", field_type := "INTEGER", mode := "NULLABLE" }, tsField]

/-- A pre-existing, already partitioned, empty destination table. -/
def t0 : BqTable := { schema := s0, rows := [], partitioning := some dayPartitioning }

/-- Faults for C1, scenario 1: the load job of the second chunk always
raises a transient error; every other call succeeds. -/
def oracleLoadBTransient : Oracle := fun e _ =>
  match e with
  | .loadJob _ r _ _ => if r = [rB_ts] then some .transient else none
  | _ => none

/-- Faults for C1, scenario 2: the load job of the second chunk always
raises a non-transient error. -/
def oracleLoadBFatal : Oracle := fun e _ =>
  match e with
  | .loadJob _ r _ _ => if r = [rB_ts] then some .nonTransient else none
  | _ => none

/-- Faults for C1, scenario 3: the load job of the second chunk raises a
transient error on its first call only. -/
def oracleLoadBOnce : Oracle := fun e k =>
  match e with
  | .loadJob _ r _ _ => if r = [rB_ts] ∧ k = 0 then some .transient else none
  | _ => none

/-- Controller context for the C1 scenarios: chunk_size overridden to 1 so
the two sample records form two chunks. -/
def ctxC1 (o : Oracle) : Ctx :=
  { table_id := "t", cfg := mergeConfig [("chunk_size", .i 1)],
    fmtNow := fun _ => "now", oracle := o }

/-- An export of the two sample records against the existing table `t0`
under the given fault oracle. -/
def c1run (o : Oracle) : World × Except Err (List Nat) :=
  export_to_bigquery (ctxC1 o) (.list [.dict rA, .dict rB]) "WRITE_APPEND" true "TS"
    (initWorld (some t0))

/-- Faults for C5/C6-style scenarios: every load job raises a transient
error. -/
def oracleAllLoadsTransient : Oracle := fun e _ =>
  match e with
  | .loadJob _ _ _ _ => some .transient
  | _ => none

/-- Export of one sample record against the existing table with the merged
configuration overriding max_retries to `v`: the override is recorded in
the merged config but the decorators never read it. -/
def c5run (v : Int) : World × Except Err (List Nat) :=
  export_to_bigquery
    { table_id := "t", cfg := mergeConfig [("max_retries", .i v)],
      fmtNow := fun _ => "now", oracle := oracleAllLoadsTransient }
    (.dict rA) "WRITE_APPEND" true "TS" (initWorld (some t0))

/-- Faults for C6: every staged-file delete raises a GoogleCloudError that
is not NotFound; everything else succeeds. -/
def oracleDeleteCloudError : Oracle := fun e _ =>
  match e with
  | .deleteFile _ => some .cloudError
  | _ => none

/-- Export of one sample record against the existing table where deleting
the staged file fails with a non-NotFound storage error. -/
def c6run : World × Except Err (List Nat) :=
  export_to_bigquery
    { table_id := "t", cfg := DEFAULT_CONFIG, fmtNow := fun _ => "now",
      oracle := oracleDeleteCloudError }
    (.dict rA) "WRITE_APPEND" true "TS" (initWorld (some t0))

/-- A fault-free controller context with default configuration. -/
def ctxOk : Ctx :=
  { table_id := "t", cfg := DEFAULT_CONFIG, fmtNow := fun _ => "20250102030405",
    oracle := fun _ _ => none }

/-- Fault-free export of two records (one chunk) against an absent table:
the path that creates the table with autodetection, migrates it to the
partitioned form, and reloads the same staged file. -/
def c9run (v1 v2 : Int) : World × Except Err (List Nat) :=
  export_to_bigquery ctxOk (.list [.dict [("a", .n v1)], .dict [("a", .n v2)]])
    "WRITE_APPEND" true "TS" (initWorld none)

/-- An operation that fails transiently on attempts 0 and 1 and then
succeeds, for the retry-policy witness. -/
def op4 : Nat → OpOut Nat := fun i => if i < 2 then .transient i else .ok 99

/-- A heap for the in-place stamping witness: object 0 is a dict that
already carries an import_timestamp value. -/
def heap0 : Nat → Record := fun n =>
  if n = 0 then [("import_timestamp", .s "OLD")] else [("b", .b true)]

/- ------------------------------------------------------------------ -/
/- Lemmas about Python dict assignment and lookup.                     -/
/- ------------------------------------------------------------------ -/

theorem dictGet_map_set (k : String) (v : α) :
    ∀ (d : List (String × α)), d.any (fun p => p.1 == k) = true →
      dictGet (d.map (fun p => if p.1 == k then (k, v) else p)) k = some v := by
  intro d
  induction d with
  | nil => intro h; simp at h
  | cons p ds ih =>
    intro h
    by_cases hp : (p.1 == k) = true
    · simp only [List.map_cons]
      rw [if_pos hp]
      simp [dictGet]
    · have hp2 : (p.1 == k) = false := by simpa using hp
      simp only [List.any_cons, hp2, Bool.false_or] at h
      simp only [List.map_cons]
      rw [if_neg hp]
      have h2 := ih h
      simp only [dictGet] at h2 ⊢
      have h3 : List.find? (fun q => q.1 == k)
            (p :: List.map (fun q => if q.1 == k then (k, v) else q) ds)
          = List.find? (fun q => q.1 == k)
            (List.map (fun q => if q.1 == k then (k, v) else q) ds) :=
        List.find?_cons_of_neg _ hp
      rw [h3]
      exact h2

theorem dictGet_append_new (k : String) (v : α) (d : List (String × α))
    (h : d.any (fun p => p.1 == k) = false) :
    dictGet (d ++ [(k, v)]) k = some v := by
  have hd : d.find? (fun p => p.1 == k) = none := by
    rw [List.find?_eq_none]
    intro x _ hpx
    have h2 : d.any (fun p => p.1 == k) = true := by
      rw [List.any_eq_true]
      exact ⟨x, by assumption, hpx⟩
    rw [h] at h2
    simp at h2
  simp only [dictGet]
  rw [List.find?_append, hd]
  simp

/-- After `d[k] = v`, looking `k` up yields `v` (the prior value, if any,
is overwritten). -/
theorem dictGet_dictSet_self (d : List (String × α)) (k : String) (v : α) :
    dictGet (dictSet d k v) k = some v := by
  unfold dictSet
  by_cases h : d.any (fun p => p.1 == k)
  · rw [if_pos h]
    exact dictGet_map_set k v d h
  · rw [if_neg h]
    simp only [Bool.not_eq_true] at h
    exact dictGet_append_new k v d h

/- ------------------------------------------------------------------ -/
/- Lemmas about the chunking step.                                     -/
/- ------------------------------------------------------------------ -/

theorem chunkDataAux_empty (c : Nat) (fuel : Nat) :
    chunkDataAux c fuel ([] : List α) = [] := by
  cases fuel <;> rfl

theorem chunkDataAux_congr (c : Nat) (hc : 0 < c) :
    ∀ (f1 f2 : Nat) (l : List α), l.length ≤ f1 → l.length ≤ f2 →
      chunkDataAux c f1 l = chunkDataAux c f2 l := by
  intro f1
  induction f1 with
  | zero =>
    intro f2 l h1 _
    have hl : l = [] := List.eq_nil_of_length_eq_zero (Nat.le_zero.mp h1)
    subst hl
    simp [chunkDataAux_empty]
  | succ n ih =>
    intro f2 l h1 h2
    cases l with
    | nil => simp [chunkDataAux_empty]
    | cons x xs =>
      cases f2 with
      | zero => simp at h2
      | succ m =>
        simp only [chunkDataAux]
        congr 1
        apply ih
        · rw [List.length_drop]
          simp only [List.length_cons] at h1 ⊢
          omega
        · rw [List.length_drop]
          simp only [List.length_cons] at h2 ⊢
          omega

theorem _chunk_data_empty (c : Nat) : _chunk_data c ([] : List α) = [] := rfl

theorem _chunk_data_step (c : Nat) (hc : 0 < c) (l : List α) (hl : l ≠ []) :
    _chunk_data c l = l.take c :: _chunk_data c (l.drop c) := by
  unfold _chunk_data
  cases l with
  | nil => exact absurd rfl hl
  | cons x xs =>
    simp only [List.length_cons, chunkDataAux]
    congr 1
    apply chunkDataAux_congr c hc
    · rw [List.length_drop]
      simp only [List.length_cons]
      omega
    · exact Nat.le_refl _

theorem chunk_ne_nil (c : Nat) (hc : 0 < c) (l : List α) (hl : l ≠ []) :
    _chunk_data c l ≠ [] := by
  rw [_chunk_data_step c hc l hl]
  exact List.cons_ne_nil _ _

theorem chunk_join (c : Nat) (hc : 0 < c) : ∀ (l : List α), (_chunk_data c l).flatten = l
  | [] => by simp [_chunk_data_empty]
  | x :: xs => by
    rw [_chunk_data_step c hc _ (List.cons_ne_nil x xs)]
    have ih := chunk_join c hc ((x :: xs).drop c)
    rw [List.flatten_cons, ih, List.take_append_drop]
termination_by l => l.length
decreasing_by
  simp only [List.length_drop, List.length_cons]
  omega

theorem chunk_count (c : Nat) (hc : 0 < c) :
    ∀ (l : List α), (_chunk_data c l).length = (l.length + c - 1) / c
  | [] => by
    rw [_chunk_data_empty]
    simp only [List.length_nil]
    exact (Nat.div_eq_of_lt (by omega)).symm
  | x :: xs => by
    rw [_chunk_data_step c hc _ (List.cons_ne_nil x xs)]
    have ih := chunk_count c hc ((x :: xs).drop c)
    simp only [List.length_cons, List.length_drop] at ih ⊢
    rw [ih]
    have hr : xs.length + 1 + c - 1 = xs.length + c := by omega
    rw [hr, Nat.add_div_right _ hc]
    rcases Nat.lt_or_ge (xs.length + 1) c with hlt | hge
    · have h1 : xs.length + 1 - c = 0 := by omega
      rw [h1]
      have h2 : (0 + c - 1) / c = 0 := Nat.div_eq_of_lt (by omega)
      have h3 : xs.length / c = 0 := Nat.div_eq_of_lt (by omega)
      rw [h2, h3]
    · have h1 : xs.length + 1 - c + c - 1 = xs.length := by omega
      rw [h1]
termination_by l => l.length
decreasing_by
  simp only [List.length_drop, List.length_cons]
  omega

theorem chunk_mem (c : Nat) (hc : 0 < c) :
    ∀ (l : List α), ∀ ch ∈ _chunk_data c l, ch ≠ [] ∧ ch.length ≤ c
  | [] => by simp [_chunk_data_empty]
  | x :: xs => by
    rw [_chunk_data_step c hc _ (List.cons_ne_nil x xs)]
    intro ch hch
    rcases List.mem_cons.mp hch with h | h
    · subst h
      constructor
      · cases c with
        | zero => exact absurd hc (lt_irrefl 0)
        | succ m => simp
      · rw [List.length_take]
        exact Nat.min_le_left _ _
    · exact chunk_mem c hc _ ch h
termination_by l => l.length
decreasing_by
  simp only [List.length_drop, List.length_cons]
  omega

theorem chunk_sizes (c : Nat) (hc : 0 < c) :
    ∀ (l : List α), ∀ ch ∈ (_chunk_data c l).dropLast, ch.length = c
  | [] => by simp [_chunk_data_empty]
  | x :: xs => by
    rw [_chunk_data_step c hc _ (List.cons_ne_nil x xs)]
    intro ch hch
    by_cases hd : (x :: xs).drop c = []
    · rw [hd, _chunk_data_empty] at hch
      simp at hch
    · have hne := chunk_ne_nil c hc _ hd
      obtain ⟨ch2, chs, hsplit⟩ := List.exists_cons_of_ne_nil hne
      rw [hsplit, List.dropLast_cons₂] at hch
      rcases List.mem_cons.mp hch with h | h
      · subst h
        rw [List.length_take]
        have hlen : c ≤ (x :: xs).length := by
          by_contra hcon
          push_neg at hcon
          exact hd (List.drop_eq_nil_of_le (by omega))
        exact Nat.min_eq_left hlen
      · have hrec := chunk_sizes c hc ((x :: xs).drop c)
        rw [hsplit] at hrec
        exact hrec ch h
termination_by l => l.length
decreasing_by
  simp only [List.length_drop, List.length_cons]
  omega

theorem chunk_single (c : Nat) (hc : 0 < c) (l : List α) (hl : l ≠ [])
    (hlen : l.length ≤ c) : _chunk_data c l = [l] := by
  rw [_chunk_data_step c hc l hl]
  rw [List.drop_eq_nil_of_le hlen, _chunk_data_empty, List.take_of_length_le hlen]

/-- C3: for every list of N records and every positive chunk_size C,
`_chunk_data` produces exactly ceil(N/C) chunks whose sizes sum to N, each
chunk non-empty and of size at most C, every chunk but the last of size
exactly C, whose concatenation in order equals the original list; for
N = 0 it produces no chunks, and for 0 < N <= C a single chunk equal to
the whole batch. -/
theorem chunking_spec (c : Nat) (l : List α) (hc : 0 < c) :
    (_chunk_data c l).length = (l.length + c - 1) / c
    ∧ (_chunk_data c l).flatten = l
    ∧ ((_chunk_data c l).map List.length).sum = l.length
    ∧ (∀ ch ∈ _chunk_data c l, ch ≠ [] ∧ ch.length ≤ c)
    ∧ (∀ ch ∈ (_chunk_data c l).dropLast, ch.length = c)
    ∧ (l = [] → _chunk_data c l = [])
    ∧ (l ≠ [] → l.length ≤ c → _chunk_data c l = [l]) := by
  refine ⟨chunk_count c hc l, chunk_join c hc l, ?_, chunk_mem c hc l,
    chunk_sizes c hc l, ?_, chunk_single c hc l⟩
  · rw [← List.length_flatten, chunk_join c hc l]
  · intro h
    subst h
    exact _chunk_data_empty c

/-- Witness for C3 at chunk_size 2 and a five-element batch. -/
theorem chunking_spec_witness :
    0 < 2 ∧ (_chunk_data 2 [10, 20, 30, 40, 50]).flatten = [10, 20, 30, 40, 50] :=
  ⟨by decide, (chunking_spec 2 [10, 20, 30, 40, 50] (by decide)).2.1⟩

/- ------------------------------------------------------------------ -/
/- Lemmas about the retry decorator.                                   -/
/- ------------------------------------------------------------------ -/

theorem retryGo_ok (op : Nat → OpOut α) (b mx : ℚ) (r a : Nat) (d : ℚ) (v : α)
    (h : op a = .ok v) : retryGo op b mx r a d = ([], .success v) := by
  cases r <;> rw [retryGo, h]

theorem retryGo_fatal (op : Nat → OpOut α) (b mx : ℚ) (r a : Nat) (d : ℚ) (e2 : Nat)
    (h : op a = .fatal e2) : retryGo op b mx r a d = ([], .raised e2) := by
  cases r <;> rw [retryGo, h]

theorem retryGo_transient_zero (op : Nat → OpOut α) (b mx : ℚ) (a : Nat) (d : ℚ) (e2 : Nat)
    (h : op a = .transient e2) : retryGo op b mx 0 a d = ([], .raised e2) := by
  rw [retryGo, h]

theorem retryGo_transient_succ (op : Nat → OpOut α) (b mx : ℚ) (r a : Nat) (d : ℚ) (e2 : Nat)
    (h : op a = .transient e2) :
    retryGo op b mx (r + 1) a d
      = (min d mx :: (retryGo op b mx r (a + 1) (d * b)).1,
         (retryGo op b mx r (a + 1) (d * b)).2) := by
  rw [retryGo, h]

theorem retryGo_allFail (op : Nat → OpOut α) (b mx : ℚ) (e : Nat → Nat)
    (hop : ∀ i, op i = .transient (e i)) :
    ∀ (r a : Nat) (d : ℚ),
      retryGo op b mx r a d
        = ((List.range r).map (fun i => min (d * b ^ i) mx), .raised (e (a + r))) := by
  intro r
  induction r with
  | zero =>
    intro a d
    rw [retryGo_transient_zero op b mx a d (e a) (hop a)]
    simp
  | succ n ih =>
    intro a d
    rw [retryGo_transient_succ op b mx n a d (e a) (hop a), ih (a + 1) (d * b)]
    dsimp only
    simp only [Prod.mk.injEq]
    refine ⟨?_, by rw [show a + 1 + n = a + (n + 1) by omega]⟩
    rw [List.range_succ_eq_map, List.map_cons, List.map_map]
    congr 1
    · rw [pow_zero, mul_one]
    · apply List.map_congr_left
      intro i _
      simp only [Function.comp_apply]
      rw [pow_succ]
      congr 1
      ring

theorem retryGo_failsThenOk (op : Nat → OpOut α) (b mx : ℚ) (e : Nat → Nat) (v : α) :
    ∀ (k r a : Nat) (d : ℚ), k ≤ r →
      (∀ i, i < k → op (a + i) = .transient (e (a + i))) →
      op (a + k) = .ok v →
      retryGo op b mx r a d
        = ((List.range k).map (fun i => min (d * b ^ i) mx), .success v) := by
  intro k
  induction k with
  | zero =>
    intro r a d _ _ hk
    simp only [Nat.add_zero] at hk
    rw [retryGo_ok op b mx r a d v hk]
    simp
  | succ n ih =>
    intro r a d hkr h1 hk
    have ha : op a = .transient (e a) := by
      have := h1 0 (Nat.succ_pos n)
      simpa using this
    obtain ⟨r2, rfl⟩ : ∃ r2, r = r2 + 1 := ⟨r - 1, by omega⟩
    rw [retryGo_transient_succ op b mx r2 a d (e a) ha]
    have h1b : ∀ i, i < n → op (a + 1 + i) = .transient (e (a + 1 + i)) := by
      intro i hi
      have := h1 (i + 1) (by omega)
      rwa [show a + (i + 1) = a + 1 + i by omega] at this
    have hkb : op (a + 1 + n) = .ok v := by
      rwa [show a + (n + 1) = a + 1 + n by omega] at hk
    rw [ih r2 (a + 1) (d * b) (by omega) h1b hkb]
    dsimp only
    simp only [Prod.mk.injEq]
    refine ⟨?_, trivial⟩
    rw [List.range_succ_eq_map, List.map_cons, List.map_map]
    congr 1
    · rw [pow_zero, mul_one]
    · apply List.map_congr_left
      intro i _
      simp only [Function.comp_apply]
      rw [pow_succ]
      congr 1
      ring

theorem expSleeps_eq (n : Nat) (init b mx : ℚ) :
    expSleeps n init b mx = (List.range n).map (fun i => min (init * b ^ i) mx) := rfl

/-- C4: if the operation raises a transient error exactly k < max_retries
times and then succeeds, the wrapped call returns the operation's result
after exactly k sleeps, each equal to min(current_delay, max_delay) with
current_delay starting at initial_retry_delay and multiplied by the
multiplier after each sleep, the sleeps non-decreasing; if the operation
always raises a transient error, the wrapper performs exactly max_retries
sleeps and re-raises the last transient error (the one of attempt
max_retries). -/
theorem retry_policy_spec (op : Nat → OpOut Nat) (maxRetries k : Nat)
    (init b mx : ℚ) (e : Nat → Nat) (v : Nat)
    (h0 : 0 ≤ init) (hb : 1 ≤ b) :
    (k < maxRetries → (∀ i, i < k → op i = .transient (e i)) → op k = .ok v →
        retryRun op maxRetries init b mx = (expSleeps k init b mx, .success v)
        ∧ (expSleeps k init b mx).length = k)
    ∧ ((∀ i, op i = .transient (e i)) →
        retryRun op maxRetries init b mx
          = (expSleeps maxRetries init b mx, .raised (e maxRetries))
        ∧ (expSleeps maxRetries init b mx).length = maxRetries)
    ∧ (∀ i j, i ≤ j → sleepAt init b mx i ≤ sleepAt init b mx j) := by
  refine ⟨?_, ?_, ?_⟩
  · intro hk h1 h2
    have h3 := retryGo_failsThenOk op b mx e v k maxRetries 0 init (le_of_lt hk)
      (fun i hi => by simpa using h1 i hi) (by simpa using h2)
    constructor
    · unfold retryRun
      rw [h3, expSleeps_eq]
    · rw [expSleeps_eq]
      simp
  · intro hall
    have h3 := retryGo_allFail op b mx e hall maxRetries 0 init
    constructor
    · unfold retryRun
      rw [h3, expSleeps_eq]
      simp
    · rw [expSleeps_eq]
      simp
  · intro i j hij
    unfold sleepAt
    exact min_le_min (mul_le_mul_of_nonneg_left (pow_le_pow_right₀ hb hij) h0) (le_refl mx)

/-- Witness for C4: two transient failures then success, with the
decorator's default parameters — two sleeps of 1s and 2s. -/
theorem retry_policy_spec_witness :
    (0 : ℚ) ≤ 1 ∧ (1 : ℚ) ≤ 2 ∧ 2 < 3 ∧ op4 2 = .ok 99
    ∧ retryRun op4 3 1 2 60 = ([1, 2], .success 99) := by
  refine ⟨by norm_num, by norm_num, by omega, rfl, ?_⟩
  have h := ((retry_policy_spec op4 3 2 1 2 60 (fun i => i) 99 (by norm_num)
    (by norm_num)).1 (by omega) (fun i hi => by simp [op4, hi]) rfl).1
  rw [h, expSleeps_eq]
  norm_num [List.range_succ]

/- ------------------------------------------------------------------ -/
/- Lemmas about the in-place stamping loop.                            -/
/- ------------------------------------------------------------------ -/

theorem stampRefs_frame (ts : String) :
    ∀ (ids : List Nat) (h : Nat → Record) (n : Nat),
      n ∉ ids → stampRefs ts ids h n = h n := by
  intro ids
  induction ids with
  | nil => intro h n _; rfl
  | cons i is ih =>
    intro h n hn
    simp only [List.mem_cons, not_or] at hn
    simp only [stampRefs]
    rw [ih _ n hn.2]
    simp [hn.1]

theorem stampRefs_mem (ts : String) :
    ∀ (ids : List Nat) (h : Nat → Record) (n : Nat), n ∈ ids →
      dictGet (stampRefs ts ids h n) "import_timestamp" = some (.s ts) := by
  intro ids
  induction ids with
  | nil => intro h n hn; simp at hn
  | cons i is ih =>
    intro h n hn
    by_cases hni : n ∈ is
    · exact ih _ n hni
    · have hn2 : n = i := by
        rcases List.mem_cons.mp hn with h1 | h1
        · exact h1
        · exact absurd h1 hni
      subst hn2
      simp only [stampRefs]
      rw [stampRefs_frame ts is _ n hni]
      simp only [if_pos rfl]
      exact dictGet_dictSet_self _ _ _

/-- C10: the stamping loop run by export mutates the caller's records in
place: it returns the very list object it was given (the ids are
unchanged, so the staged records are the caller's own objects, not
copies), every referenced dict afterwards carries import_timestamp = ts
(overwriting any existing value under that key), every object not in the
list is untouched, and the chunks staged by export are exactly these ids
in order. -/
theorem export_mutates_input (ts : String) (ids : List Nat) (h : Nat → Record)
    (c : Nat) (hc : 0 < c) :
    (_add_import_timestamp_refs ts ids h).2 = ids
    ∧ (∀ n ∈ ids,
        dictGet ((_add_import_timestamp_refs ts ids h).1 n) "import_timestamp"
          = some (.s ts))
    ∧ (∀ n, n ∉ ids → (_add_import_timestamp_refs ts ids h).1 n = h n)
    ∧ (_chunk_data c ids).flatten = ids := by
  refine ⟨rfl, ?_, ?_, chunk_join c hc ids⟩
  · intro n hn
    exact stampRefs_mem ts ids h n hn
  · intro n hn
    exact stampRefs_frame ts ids h n hn

/-- Witness for C10: stamping objects 0 and 1 in `heap0` overwrites the
stale import_timestamp of object 0 and leaves object 2 untouched. -/
theorem export_mutates_input_witness :
    (0 ∈ [0, 1] ∧ 2 ∉ [0, 1] ∧ 0 < 2)
    ∧ dictGet ((_add_import_timestamp_refs "T" [0, 1] heap0).1 0) "import_timestamp"
        = some (.s "T")
    ∧ (_add_import_timestamp_refs "T" [0, 1] heap0).1 2 = heap0 2 := by
  refine ⟨⟨by decide, by decide, by decide⟩, ?_, ?_⟩
  · exact (export_mutates_input "T" [0, 1] heap0 2 (by decide)).2.1 0 (by decide)
  · exact (export_mutates_input "T" [0, 1] heap0 2 (by decide)).2.2.1 2 (by decide)

/- ------------------------------------------------------------------ -/
/- The timestamp stamper (value behaviour).                            -/
/- ------------------------------------------------------------------ -/

/-- C7: given a dict the stamper returns the same structure with
import_timestamp set to the one captured timestamp; given a list of dicts
it stamps every record with that same single timestamp; any other input,
or a list containing a non-dict, raises a type error. -/
theorem timestamp_stamper_spec (ts : String) (r : Record) (rs : List Record)
    (x : PyVal) :
    (_add_import_timestamp ts (.dict r)
        = .ok (.dict (dictSet r "import_timestamp" (.s ts)))
      ∧ dictGet (dictSet r "import_timestamp" (.s ts)) "import_timestamp"
          = some (.s ts))
    ∧ (_add_import_timestamp ts (.list (rs.map PyVal.dict))
        = .ok (.list (rs.map (fun d => PyVal.dict (dictSet d "import_timestamp" (.s ts)))))
      ∧ ∀ d ∈ rs,
          dictGet (dictSet d "import_timestamp" (.s ts)) "import_timestamp"
            = some (.s ts))
    ∧ _add_import_timestamp ts .other = .error .typeError
    ∧ (isDictB x = false → ∀ pre post : List PyVal,
        _add_import_timestamp ts (.list (pre ++ x :: post)) = .error .typeError) := by
  refine ⟨⟨rfl, dictGet_dictSet_self _ _ _⟩, ⟨?_, ?_⟩, rfl, ?_⟩
  · have hall : (rs.map PyVal.dict).all isDictB = true := by
      simp only [List.all_eq_true]
      intro y hy
      obtain ⟨d, _, rfl⟩ := List.mem_map.mp hy
      rfl
    simp only [_add_import_timestamp, hall, if_pos]
    rw [List.map_map]
    rfl
  · intro d _
    exact dictGet_dictSet_self _ _ _
  · intro hx pre post
    have hall : (pre ++ x :: post).all isDictB = false := by
      simp only [List.all_append, List.all_cons, hx]
      simp
    simp only [_add_import_timestamp, hall]
    simp

/-- Witness for C7: a list containing a non-dict raises the type error, and
a stamped record looks its timestamp up. -/
theorem timestamp_stamper_spec_witness :
    isDictB PyVal.other = false
    ∧ _add_import_timestamp "T" (.list [PyVal.other]) = .error .typeError
    ∧ dictGet (dictSet rA "import_timestamp" (.s "T")) "import_timestamp"
        = some (.s "T") := by
  refine ⟨rfl, ?_, ?_⟩
  · have h := (timestamp_stamper_spec "T" [] [] PyVal.other).2.2.2 rfl [] []
    simpa using h
  · exact (timestamp_stamper_spec "T" rA [rA] PyVal.other).2.1.2 rA (by simp)

/- ------------------------------------------------------------------ -/
/- The partitioning migration.                                         -/
/- ------------------------------------------------------------------ -/

/-- C2: on a fault-free run against an existing table with schema S and
rows R, the migration performs exactly: read the schema; create the temp
table named `table_id ++ "_" ++ prefix ++ suffix` (suffix defaulting to the
current Europe/Berlin time formatted per the configured format) with the
effective schema and day partitioning on import_timestamp (filter not
required, no expiration); copy all rows via the full-table select; delete
the original table; confirm the temp table exists; immediately rename —
in this order and nothing else — leaving the destination table with the
effective schema, the same rows, and day partitioning.  The effective
schema appends a TIMESTAMP import_timestamp when absent, drops and
re-adds it TIMESTAMP-typed when mistyped, and keeps the schema otherwise. -/
theorem partition_migration_spec (tid : String) (cfg : Config)
    (fmt : String → String) (S : List SchemaField) (R : List Record)
    (p : Option TimePartitioning) :
    _create_partitioned_table
        { table_id := tid, cfg := cfg, fmtNow := fmt, oracle := fun _ _ => none }
        none (initWorld (some { schema := S, rows := R, partitioning := p }))
      = ({ mainTable := some { schema := effectiveSchema S, rows := R,
                               partitioning := some dayPartitioning },
           tempTable := none, files := [], nextUri := 0,
           trace := [.getTable tid,
                     .createTable
                       (tid ++ "_" ++ cfgStr cfg "temp_table_prefix"
                         ++ fmt (cfgStr cfg "temp_table_suffix_format"))
                       (effectiveSchema S) (some dayPartitioning),
                     .copyQuery tid
                       (tid ++ "_" ++ cfgStr cfg "temp_table_prefix"
                         ++ fmt (cfgStr cfg "temp_table_suffix_format")),
                     .deleteTable tid,
                     .getTable
                       (tid ++ "_" ++ cfgStr cfg "temp_table_prefix"
                         ++ fmt (cfgStr cfg "temp_table_suffix_format")),
                     .renameQuery
                       (tid ++ "_" ++ cfgStr cfg "temp_table_prefix"
                         ++ fmt (cfgStr cfg "temp_table_suffix_format"))
                       tid] }, .ok ())
    ∧ effectiveSchema [{ name := "a", field_type := "STRING", mode := "NULLABLE" }]
        = [{ name := "a", field_type := "STRING", mode := "NULLABLE" }, tsField]
    ∧ effectiveSchema
        [{ name := "a", field_type := "STRING", mode := "NULLABLE" },
         { name := "import_timestamp", field_type := "STRING", mode := "NULLABLE" }]
        = [{ name := "a", field_type := "STRING", mode := "NULLABLE" }, tsField]
    ∧ effectiveSchema
        [{ name := "a", field_type := "STRING", mode := "NULLABLE" }, tsField]
        = [{ name := "a", field_type := "STRING", mode := "NULLABLE" }, tsField] := by
  refine ⟨rfl, by decide, by decide, by decide⟩

/- ------------------------------------------------------------------ -/
/- Export: validation, empty batch, duplication, retries, cleanup.     -/
/- ------------------------------------------------------------------ -/

/-- C8: an invalid write_disposition makes export raise the value error
immediately with no collaborator call and no retry (the returned world is
the untouched initial world, whose trace is empty), and exporting an empty
record list returns an empty URI list with no table or storage
interaction. -/
theorem export_validation_spec (ctx : Ctx) (mt : Option BqTable) (data : PyVal)
    (wd : String) (del : Bool) (ts : String)
    (h : wd ∉ ["WRITE_APPEND", "WRITE_TRUNCATE", "WRITE_EMPTY"]) :
    export_to_bigquery ctx data wd del ts (initWorld mt)
      = (initWorld mt, .error .valueError)
    ∧ ∀ (ctx2 : Ctx) (mt2 : Option BqTable) (del2 : Bool) (ts2 : String),
        export_to_bigquery ctx2 (.list []) "WRITE_APPEND" del2 ts2 (initWorld mt2)
          = (initWorld mt2, .ok []) := by
  constructor
  · have hb : export_body ctx data wd del ts (initWorld mt)
        = (initWorld mt, .error .valueError) := by
      unfold export_body
      rw [if_pos h]
    unfold export_to_bigquery retryS
    rw [hb]
  · intro ctx2 mt2 del2 ts2
    rfl

/-- Witness for C8 at the invalid disposition "BOGUS". -/
theorem export_validation_spec_witness :
    "BOGUS" ∉ ["WRITE_APPEND", "WRITE_TRUNCATE", "WRITE_EMPTY"]
    ∧ export_to_bigquery ctxOk (.dict rA) "BOGUS" true "TS" (initWorld (some t0))
        = (initWorld (some t0), .error .valueError) :=
  ⟨by decide,
   (export_validation_spec ctxOk (some t0) (.dict rA) "BOGUS" true "TS" (by decide)).1⟩

/-- C9: on a fault-free export against an absent table the staged file of
the first chunk is loaded twice — once with autodetection into the fresh
table whose rows the migration copies into the partitioned replacement,
and once more with the frozen schema — so under WRITE_APPEND the final
table holds the stamped batch twice, and each record of the chunk occurs
twice. -/
theorem first_chunk_loaded_twice (v1 v2 : Int) :
    (c9run v1 v2).2 = .ok [0]
    ∧ (c9run v1 v2).1.mainTable.map BqTable.rows
        = some [[("a", .n v1), ("import_timestamp", .s "TS")],
                [("a", .n v2), ("import_timestamp", .s "TS")],
                [("a", .n v1), ("import_timestamp", .s "TS")],
                [("a", .n v2), ("import_timestamp", .s "TS")]]
    ∧ loadEvents (c9run v1 v2).1.trace
        = [.loadJob 0 [[("a", .n v1), ("import_timestamp", .s "TS")],
                       [("a", .n v2), ("import_timestamp", .s "TS")]] true "WRITE_APPEND",
           .loadJob 0 [[("a", .n v1), ("import_timestamp", .s "TS")],
                       [("a", .n v2), ("import_timestamp", .s "TS")]] false "WRITE_APPEND"]
    ∧ (c9run v1 v2).1.mainTable.map (fun t => t.partitioning)
        = some (some dayPartitioning)
    ∧ (((c9run 1 2).1.mainTable.map BqTable.rows).getD []).filter
        (fun r => decide (r = rA_ts)) = [rA_ts, rA_ts] :=
  ⟨rfl, rfl, rfl, rfl, rfl⟩

/-- C1 counterexample: with the destination table existing, two one-record
chunks, and the second chunk's load job failing transiently every time,
the load of chunk 0 — a prior successful step — is executed 4 times (once
per attempt of the retry wrapper on export itself), and only then does the
transient failure propagate; the claim predicts chunk 0 is loaded exactly
once and that an unrecovered failure aborts the loop immediately. -/
theorem retry_independence_counterexample :
    (c1run oracleLoadBTransient).2 = .error .transient
    ∧ countLoadsOf [rA_ts] (c1run oracleLoadBTransient).1.trace = 4
    ∧ (c1run oracleLoadBTransient).1.mainTable.map BqTable.rows
        = some [rA_ts, rA_ts, rA_ts, rA_ts] :=
  ⟨rfl, rfl, rfl⟩

/-- C1 amended: table lookup, table creation, load job and query job are
each wrapped by the retry policy, but export itself is wrapped too, so a
transient failure that exhausts a step's own retries re-runs the whole
export body — re-executing prior successful uploads and load jobs up to 3
more times (appending their rows again under WRITE_APPEND) — before the
error propagates; a non-transient failure aborts the remaining chunk loop
immediately with chunks already loaded remaining loaded; and a transient
failure resolved within the step's own retry budget re-runs no prior
successful step. -/
theorem retry_independence_amended :
    ((c1run oracleLoadBTransient).2 = .error .transient
      ∧ countLoadsOf [rA_ts] (c1run oracleLoadBTransient).1.trace = 4
      ∧ countLoadsOf [rB_ts] (c1run oracleLoadBTransient).1.trace = 16
      ∧ (c1run oracleLoadBTransient).1.mainTable.map BqTable.rows
          = some [rA_ts, rA_ts, rA_ts, rA_ts])
    ∧ ((c1run oracleLoadBFatal).2 = .error .nonTransient
      ∧ countLoadsOf [rA_ts] (c1run oracleLoadBFatal).1.trace = 1
      ∧ countLoadsOf [rB_ts] (c1run oracleLoadBFatal).1.trace = 1
      ∧ (c1run oracleLoadBFatal).1.mainTable.map BqTable.rows = some [rA_ts])
    ∧ ((c1run oracleLoadBOnce).2 = .ok [0, 1]
      ∧ countLoadsOf [rA_ts] (c1run oracleLoadBOnce).1.trace = 1
      ∧ countLoadsOf [rB_ts] (c1run oracleLoadBOnce).1.trace = 2
      ∧ (c1run oracleLoadBOnce).1.mainTable.map BqTable.rows = some [rA_ts, rB_ts]
      ∧ (c1run oracleLoadBOnce).1.files = []) :=
  ⟨⟨rfl, rfl, rfl, rfl⟩, ⟨rfl, rfl, rfl, rfl⟩, ⟨rfl, rfl, rfl, rfl, rfl⟩⟩

/-- C5 counterexample: the merged configuration records max_retries = 0,
yet the decorated operation — instantiated with the decorator's literal
defaults, since every application is `retry_on_transient_error()` with no
arguments — still performs 3 sleeps and raises the error of attempt 3;
the claim predicts the override governs the retry behaviour (0 retries). -/
theorem config_governs_retries_counterexample :
    dictGet (mergeConfig [("max_retries", .i 0)]) "max_retries" = some (.i 0)
    ∧ (decoratedRetryRun (fun i => (OpOut.transient i : OpOut Nat))).1.length = 3
    ∧ (decoratedRetryRun (fun i => (OpOut.transient i : OpOut Nat))).2 = .raised 3 :=
  ⟨rfl, rfl, rfl⟩

/-- C5 amended: the controller merges caller overrides over the defaults
once at construction (overrides win, untouched keys keep their defaults),
but the retry wrappers are instantiated with the decorator's hard-coded
defaults (3 retries, delays 1/2/60) and never read the merged retry keys:
whatever max_retries override is supplied, an always-transiently-failing
load is attempted 16 times (4 export-level attempts times 4 load-level
attempts) and the plain decorated operation sleeps exactly 3 times. -/
theorem config_governs_retries_amended (v : Int) :
    dictGet (mergeConfig [("max_retries", .i 0), ("chunk_size", .i 5)]) "max_retries"
      = some (.i 0)
    ∧ dictGet (mergeConfig [("max_retries", .i 0), ("chunk_size", .i 5)]) "chunk_size"
      = some (.i 5)
    ∧ dictGet (mergeConfig [("max_retries", .i 0), ("chunk_size", .i 5)])
        "retry_multiplier" = some (.i 2)
    ∧ dictGet (mergeConfig []) "max_retries" = some (.i 3)
    ∧ (c5run v).2 = .error .transient
    ∧ countLoadsOf [rA_ts] (c5run 0).1.trace = 16
    ∧ (decoratedRetryRun (fun i => (OpOut.transient i : OpOut Nat))).1.length = 3 :=
  ⟨rfl, rfl, rfl, rfl, rfl, by decide, rfl⟩

/-- C6 counterexample: when deleting the staged file raises a storage error
that is not not-found, export nevertheless returns successfully (the error
is swallowed inside delete_file, which catches and logs GoogleCloudError
and every other exception) and the staged file is left in the bucket; the
claim predicts the failure propagates to the export caller. -/
theorem cleanup_swallow_counterexample :
    c6run.2 = .ok [0]
    ∧ c6run.1.files = [(0, [rA_ts])] :=
  ⟨rfl, rfl⟩

/-- C6 amended: deleting an already absent staged file is a normal
non-error outcome, but so is every other deletion failure: delete_file
catches every storage error, returns normally in all cases (leaving the
file behind on failure), and export completes successfully after a failed
cleanup — no deletion failure propagates to the export caller. -/
theorem cleanup_swallows_errors_amended (tid : String) (cfg : Config)
    (fmt : String → String) (uri : Nat) (w : World) (errKind : Err) :
    delete_file
        ({ table_id := tid, cfg := cfg, fmtNow := fmt,
           oracle := (fun e _ =>
             match e with | .deleteFile _ => some errKind | _ => none) })
        uri w
      = (emit w (.deleteFile uri), .ok ())
    ∧ delete_file
        ({ table_id := tid, cfg := cfg, fmtNow := fmt, oracle := (fun _ _ => none) })
        uri w
      = ({ emit w (.deleteFile uri) with
           files := w.files.filter (fun p => p.1 ≠ uri) }, .ok ())
    ∧ c6run.2 = .ok [0]
    ∧ c6run.1.trace.filter
        (fun e => match e with | .deleteFile _ => true | _ => false) = [.deleteFile 0]
    ∧ c6run.1.files = [(0, [rA_ts])] :=
  ⟨rfl, rfl, rfl, rfl, rfl⟩

end Vnp

